import Mathlib

/-!
Verification of the cellar repository-access and installation/update pipeline
against its natural-language specification.

The development shallowly embeds the relevant parts of the Python sources:

* `cellar/backend/updater.py` — overlay-merge (`_overlay_python`, `_overlay_rsync`,
  `_is_excluded`) and the safe-update pipeline (`update_app_safe`).
* `cellar/backend/installer.py` — the install pipeline (`install_app`,
  `_acquire_archive`, `_http_stream`, `_verify_sha256`, `_extract_archive`,
  `_find_bottle_dir`, `_safe_bottle_name`).
* `cellar/backend/repo.py` — catalogue fetching (`Repo.fetch_catalogue`).
* `cellar/models/app_entry.py` — `AppEntry.from_dict` / `AppEntry.to_dict`.

Files are modelled as finite maps from relative paths (lists of path segments)
to byte lists; JSON documents as an inductive `JVal`; the SHA-256 function and
the tar parser as abstract function parameters (their implementations are
external libraries); cooperative cancellation as a function from checkpoint
index to the flag's state at that observation.
-/

namespace Cellar

/-! ### Paths, byte contents and destination file systems -/

/-- A path relative to a bottle root, as a list of path segments
(`pathlib.Path.parts`). -/
abbrev RelPath := List String

/-- File contents, as a list of bytes. -/
abbrev Bytes := List Nat

/-- A destination directory state: which file contents, if any, live at each
relative path.  `none` means no file exists at that path. -/
abbrev FS := RelPath → Option Bytes

/-! ### Overlay exclusion rules (`updater.py`, `_EXCLUDE_PREFIXES`,
`_EXCLUDE_NAMES`, `_is_excluded`) -/

/-- Tuple patterns matched against the lowercased parts of each file's path
relative to the bottle root; `none` matches any single component
(`updater._EXCLUDE_PREFIXES`). -/
def _EXCLUDE_PREFIXES : List (List (Option String)) :=
  [ [some "drive_c", some "users", none, some "appdata", some "roaming"],
    [some "drive_c", some "users", none, some "appdata", some "local"],
    [some "drive_c", some "users", none, some "appdata", some "locallow"],
    [some "drive_c", some "users", none, some "documents"] ]

/-- Protected bare file names (`updater._EXCLUDE_NAMES`). -/
def _EXCLUDE_NAMES : List String := ["user.reg", "userdef.reg"]

/-- ASCII lowercasing of one path segment (`str.lower()`; the exclusion
patterns and Wine path components are ASCII, where CPython's `str.lower()`
agrees with ASCII lowercasing). -/
def strLower (s : String) : String := ⟨s.data.map Char.toLower⟩

/-- One pattern check from `_is_excluded`: the pattern is skipped when it is
longer than the path, and otherwise every pattern component must be the
wildcard or equal the corresponding (already lowercased) path component. -/
def patMatches (pat : List (Option String)) (parts : List String) : Bool :=
  decide (pat.length ≤ parts.length) &&
    (List.zip pat parts).all fun pe =>
      match pe.1 with
      | none => true
      | some s => s == pe.2

/-- `updater._is_excluded`: should the file at relative path `rel` be skipped
by the overlay?  Matches the lowercased parts against the protected names and
prefix patterns. -/
def _is_excluded (rel : RelPath) : Bool :=
  let parts := rel.map strLower
  match parts.getLast? with
  | none => false
  | some lastPart =>
      lastPart ∈ _EXCLUDE_NAMES || _EXCLUDE_PREFIXES.any fun pat => patMatches pat parts

/-! ### The pure-Python overlay (`updater._overlay_python`)

`_overlay_python` walks every file under the extracted source tree, skips the
excluded relative paths, and copies each remaining file over the destination
(`shutil.copy2`, which overwrites).  It never removes a destination file.
The source tree is modelled as the list of (relative path, contents) pairs
produced by `src.rglob("*")` restricted to files. -/

/-- One copy step of `_overlay_python`: skip excluded paths, otherwise write
the source file's bytes at the destination path. -/
def overlayStep (d : FS) (f : RelPath × Bytes) : FS :=
  if _is_excluded f.1 then d
  else fun q => if q = f.1 then some f.2 else d q

/-- `updater._overlay_python` as a destination-state transformer. -/
def _overlay_python (files : List (RelPath × Bytes)) (dst : FS) : FS :=
  files.foldl overlayStep dst

/-- Does the source file list write at `rel` (a non-excluded source file with
exactly this relative path)? -/
def writesAt (files : List (RelPath × Bytes)) (rel : RelPath) : Bool :=
  files.any fun f => !_is_excluded f.1 && decide (f.1 = rel)

/-! ### The rsync overlay path (`updater._overlay_rsync`, `_RSYNC_EXCLUDES`)

Modelled from the spec: rsync itself is the external "system's
file-synchronization tool" and is not part of this repository, so its
`--exclude` matching is modelled from its documented filter rules, restricted
to the features the six patterns below use: a pattern is matched against the
trailing components of each transferred path (the patterns are unanchored), a
`*` component matches one whole path component (it does not cross `/`), a
trailing `/` makes the pattern match directories only, an excluded directory
hides its whole subtree, and matching is case-sensitive. -/

/-- `updater._RSYNC_EXCLUDES`, the glob strings handed to rsync. -/
def _RSYNC_EXCLUDES : List String :=
  [ "drive_c/users/*/AppData/Roaming/",
    "drive_c/users/*/AppData/Local/",
    "drive_c/users/*/AppData/LocalLow/",
    "drive_c/users/*/Documents/",
    "user.reg",
    "userdef.reg" ]

/-- Match of one glob component: the patterns use only literal components and
the full-component wildcard. -/
def rsyncCompMatch (pat comp : String) : Bool :=
  pat == "*" || pat == comp

/-- Unanchored rsync matching: the pattern components must match the trailing
components of the path.  (A pattern without a slash thereby matches the final
name component, as rsync documents.) -/
def rsyncTrailingMatch (pats comps : List String) : Bool :=
  decide (pats.length ≤ comps.length) &&
    (List.zip pats (comps.drop (comps.length - pats.length))).all fun pc =>
      rsyncCompMatch pc.1 pc.2

/-- Split a glob string on slashes (the behaviour of `String.splitOn "/"`,
written structurally over the character list). -/
def splitSlash (s : String) : List String :=
  (s.data.foldr
      (fun c acc =>
        match acc with
        | [] => [[c]]
        | cur :: rest => if c = '/' then [] :: cur :: rest else (c :: cur) :: rest)
      [[]]).map fun cs => ⟨cs⟩

/-- Does one exclude pattern match the path `q` (a file when `isDir = false`)? -/
def rsyncPatExcludes (pattern : String) (q : RelPath) (isDir : Bool) : Bool :=
  let comps := splitSlash pattern
  let dirOnly := comps.getLast? == some ""
  let comps' := if dirOnly then comps.dropLast else comps
  (!dirOnly || isDir) && rsyncTrailingMatch comps' q

/-- Is the source file at relative path `rel` skipped by the rsync overlay?
A file is skipped when the file itself or any ancestor directory matches one
of the exclude patterns. -/
def rsyncSkips (rel : RelPath) : Bool :=
  (List.range rel.length).any fun k =>
    _RSYNC_EXCLUDES.any fun pat =>
      rsyncPatExcludes pat (rel.take (k + 1)) (decide (k + 1 < rel.length))

/-- The destination state produced by the rsync overlay path
(`rsync -a --no-delete --exclude …`): add/update every source file that the
exclude patterns do not skip, delete nothing. -/
def _overlay_rsync (files : List (RelPath × Bytes)) (dst : FS) : FS :=
  files.foldl
    (fun d f =>
      if rsyncSkips f.1 then d
      else fun q => if q = f.1 then some f.2 else d q)
    dst

/-! ### Lemmas about the pure-Python overlay -/

theorem overlayStep_local (f : RelPath × Bytes) (d₁ d₂ : FS) (rel : RelPath)
    (h : d₁ rel = d₂ rel) : overlayStep d₁ f rel = overlayStep d₂ f rel := by
  unfold overlayStep
  split
  · exact h
  · by_cases hq : rel = f.1 <;> simp [hq, h]

theorem overlay_local : ∀ (files : List (RelPath × Bytes)) (d₁ d₂ : FS) (rel : RelPath),
    d₁ rel = d₂ rel → _overlay_python files d₁ rel = _overlay_python files d₂ rel := by
  intro files
  induction files with
  | nil => intro d₁ d₂ rel h; simpa [_overlay_python] using h
  | cons f fs ih =>
      intro d₁ d₂ rel h
      simp only [_overlay_python, List.foldl_cons] at *
      exact ih _ _ rel (overlayStep_local f d₁ d₂ rel h)

theorem overlay_frame : ∀ (files : List (RelPath × Bytes)) (d : FS) (rel : RelPath),
    writesAt files rel = false → _overlay_python files d rel = d rel := by
  intro files
  induction files with
  | nil => intro d rel _; rfl
  | cons f fs ih =>
      intro d rel h
      simp only [writesAt, List.any_cons, Bool.or_eq_false_iff] at h
      have hstep : overlayStep d f rel = d rel := by
        unfold overlayStep
        split
        · rfl
        · rename_i hex
          have hne : ¬(f.1 = rel) := by
            have hexf : _is_excluded f.1 = false := Bool.eq_false_iff.mpr hex
            have h1 := h.1
            rw [hexf] at h1
            simpa using h1
          have hne' : ¬(rel = f.1) := fun hq => hne hq.symm
          simp [hne']
      calc _overlay_python (f :: fs) d rel
      _ = _overlay_python fs (overlayStep d f) rel := rfl
      _ = overlayStep d f rel := ih _ rel h.2
      _ = d rel := hstep

theorem overlay_writes : ∀ (files : List (RelPath × Bytes)) (d₁ d₂ : FS) (rel : RelPath),
    writesAt files rel = true →
    _overlay_python files d₁ rel = _overlay_python files d₂ rel := by
  intro files
  induction files with
  | nil => intro d₁ d₂ rel h; simp [writesAt] at h
  | cons f fs ih =>
      intro d₁ d₂ rel h
      by_cases hw : writesAt fs rel = true
      · exact ih _ _ rel hw
      · simp only [writesAt, List.any_cons, Bool.or_eq_true] at h
        rcases h with h | h
        · have hex : _is_excluded f.1 = false := by
            cases hx : _is_excluded f.1 <;> simp [hx] at h ⊢
          have hq : f.1 = rel := by
            have := (Bool.and_eq_true _ _).mp h
            exact of_decide_eq_true this.2
          have hstep : overlayStep d₁ f rel = overlayStep d₂ f rel := by
            unfold overlayStep
            rw [hq] at hex
            simp [hq, hex]
          exact overlay_local fs _ _ rel hstep
        · exact absurd h hw

theorem overlay_keeps : ∀ (files : List (RelPath × Bytes)) (d : FS) (rel : RelPath),
    (d rel).isSome → (_overlay_python files d rel).isSome := by
  intro files
  induction files with
  | nil => intro d rel h; exact h
  | cons f fs ih =>
      intro d rel h
      refine ih (overlayStep d f) rel ?_
      unfold overlayStep
      split
      · exact h
      · by_cases hq : rel = f.1 <;> simp [hq, h]

/-- C1: every destination file whose relative path is absent from the source
file list, or is marked excluded by `_is_excluded` (the per-user
AppData/Documents subtrees and the bare `user.reg` / `userdef.reg` names), is
unchanged by `_overlay_python`; and no destination file is ever deleted by the
merge. -/
theorem overlay_python_frame_and_no_delete
    (files : List (RelPath × Bytes)) (dst : FS) (rel : RelPath) :
    (((∀ f ∈ files, f.1 ≠ rel) ∨ _is_excluded rel = true) →
        _overlay_python files dst rel = dst rel)
    ∧ ((dst rel).isSome → (_overlay_python files dst rel).isSome) := by
  constructor
  · intro h
    apply overlay_frame
    simp only [writesAt, List.any_eq_false]
    intro f hf
    rcases h with h | h
    · simp [h f hf]
    · cases hx : _is_excluded f.1
      · by_cases hq : f.1 = rel
        · rw [hq] at hx; rw [hx] at h; cases h
        · simp [hq]
      · simp
  · exact overlay_keeps files dst rel

/-- C8: `_overlay_python` is idempotent — applying the overlay twice with the
same source file list leaves every destination path in the state produced by
applying it once. -/
theorem overlay_python_idempotent (files : List (RelPath × Bytes)) (dst : FS) (rel : RelPath) :
    _overlay_python files (_overlay_python files dst) rel = _overlay_python files dst rel := by
  by_cases hw : writesAt files rel = true
  · exact overlay_writes files _ _ rel hw
  · have hw' : writesAt files rel = false := Bool.eq_false_iff.mpr hw
    rw [overlay_frame files _ rel hw', overlay_frame files _ rel hw']

/-- C9: the rsync exclude globs and the Python predicate `_is_excluded` do not
have identical semantics, and the two overlay paths produce observably
different destination states.  `_is_excluded` lowercases the path before
matching, while rsync glob matching is case-sensitive: the registry file name
`USER.REG` is protected by the Python fallback but copied (overwriting the
destination) by the rsync path.  The rsync patterns are also unanchored, so
they match a per-user subtree at any depth, while the Python prefix patterns
only match at the bottle root. -/
theorem rsync_python_exclusion_divergence :
    _is_excluded ["USER.REG"] = true ∧ rsyncSkips ["USER.REG"] = false
    ∧ _overlay_python [(["USER.REG"], [1])] (fun _ => none) ["USER.REG"] = none
    ∧ _overlay_rsync [(["USER.REG"], [1])] (fun _ => none) ["USER.REG"] = some [1]
    ∧ _is_excluded ["apps", "drive_c", "users", "bob", "AppData", "Roaming", "x.ini"] = false
    ∧ rsyncSkips ["apps", "drive_c", "users", "bob", "AppData", "Roaming", "x.ini"] = true := by
  refine ⟨by decide, by decide, ?_, ?_, by decide, by decide⟩
  · simp [_overlay_python, overlayStep, List.foldl_cons, show _is_excluded ["USER.REG"] = true by decide]
  · simp [_overlay_rsync, List.foldl_cons, show rsyncSkips ["USER.REG"] = false by decide]

/-- Witness for C1 at a concrete input: a destination file at a path absent
from the source is unchanged and stays present. -/
theorem overlay_python_frame_and_no_delete_witness :
    (_overlay_python [(["a"], [1])] (fun _ => some [2]) ["b"]
        = (fun _ : RelPath => (some [2] : Option Bytes)) ["b"])
    ∧ (_overlay_python [(["a"], [1])] (fun _ => some [2]) ["b"]).isSome :=
  ⟨(overlay_python_frame_and_no_delete [(["a"], [1])] (fun _ => some [2]) ["b"]).1
      (Or.inl (by decide)),
   (overlay_python_frame_and_no_delete [(["a"], [1])] (fun _ => some [2]) ["b"]).2 rfl⟩

/-! ### Decimal representation of naturals

`installer._safe_bottle_name` builds candidate names `app_id-2`, `app_id-3`, …
The collision-freedom argument needs that distinct indices give distinct name
strings, i.e. that `Nat.repr` is injective; core and Mathlib do not provide
this, so it is proved here via an explicit digit-list evaluation. -/

/-- The digit list of `n` in base 10, most significant first (the list built
by `Nat.toDigitsCore`). -/
def reprDigits (n : Nat) : List Char :=
  if n < 10 then [Nat.digitChar n]
  else reprDigits (n / 10) ++ [Nat.digitChar (n % 10)]
decreasing_by exact Nat.div_lt_self (by omega) (by omega)

theorem toDigitsCore_eq_reprDigits :
    ∀ (fuel n : Nat) (ds : List Char), n < fuel →
      Nat.toDigitsCore 10 fuel n ds = reprDigits n ++ ds := by
  intro fuel
  induction fuel with
  | zero => intro n ds h; exact absurd h (Nat.not_lt_zero n)
  | succ fuel ih =>
      intro n ds h
      rw [Nat.toDigitsCore]
      by_cases h10 : n / 10 = 0
      · have hn : n < 10 := by omega
        rw [if_pos h10, reprDigits, if_pos hn, Nat.mod_eq_of_lt hn]
        rfl
      · have hn : ¬n < 10 := by omega
        have hlt : n / 10 < fuel := by
          have : n / 10 < n := Nat.div_lt_self (by omega) (by omega)
          omega
        rw [if_neg h10, ih (n / 10) _ hlt,
          show reprDigits n = reprDigits (n / 10) ++ [Nat.digitChar (n % 10)] from by
            rw [reprDigits]; exact if_neg hn,
          List.append_assoc]
        rfl

theorem repr_eq_reprDigits (n : Nat) : Nat.repr n = (reprDigits n).asString := by
  unfold Nat.repr Nat.toDigits
  rw [toDigitsCore_eq_reprDigits (n + 1) n [] (Nat.lt_succ_self n), List.append_nil]

/-- Evaluate a digit list (most significant first) starting from accumulator
`a`. -/
def digitsVal (a : Nat) (l : List Char) : Nat :=
  l.foldl (fun acc c => 10 * acc + (c.toNat - 48)) a

theorem digitChar_toNat (d : Nat) (h : d < 10) : (Nat.digitChar d).toNat - 48 = d := by
  interval_cases d <;> rfl

theorem digitsVal_reprDigits :
    ∀ (n a : Nat), digitsVal a (reprDigits n) = a * 10 ^ (reprDigits n).length + n := by
  intro n
  induction n using Nat.strong_induction_on with
  | _ n ih =>
      intro a
      by_cases h : n < 10
      · rw [reprDigits, if_pos h]
        simp [digitsVal, digitChar_toNat n h]
        ring
      · rw [reprDigits, if_neg h]
        have hdiv : n / 10 < n := Nat.div_lt_self (by omega) (by omega)
        simp only [digitsVal, List.foldl_append, List.foldl_cons, List.foldl_nil,
          List.length_append, List.length_cons, List.length_nil]
        have hmod : n % 10 < 10 := Nat.mod_lt n (by omega)
        rw [show (List.foldl (fun acc c => 10 * acc + (c.toNat - 48)) a (reprDigits (n / 10)))
              = digitsVal a (reprDigits (n / 10)) from rfl,
          ih (n / 10) hdiv a, digitChar_toNat _ hmod]
        have := Nat.div_add_mod n 10
        rw [pow_succ]
        ring_nf
        omega

theorem reprDigits_inj {m n : Nat} (h : reprDigits m = reprDigits n) : m = n := by
  have hm := digitsVal_reprDigits m 0
  have hn := digitsVal_reprDigits n 0
  rw [h] at hm
  omega

theorem nat_repr_injective : Function.Injective Nat.repr := by
  intro m n h
  rw [repr_eq_reprDigits, repr_eq_reprDigits] at h
  have : reprDigits m = reprDigits n := by
    have := congrArg String.data h
    simpa [List.asString] using this
  exact reprDigits_inj this

theorem string_data_inj {s t : String} (h : s.data = t.data) : s = t := by
  cases s
  cases t
  exact congrArg String.mk (by simpa using h)

theorem name_string_injective (app_id : String) :
    Function.Injective fun i : Nat => app_id ++ "-" ++ Nat.repr i := by
  intro i j h
  apply nat_repr_injective
  apply string_data_inj
  have hd := congrArg String.data h
  simp only [String.data_append] at hd
  exact List.append_cancel_left hd

/-! ### Collision-safe bottle naming (`installer._safe_bottle_name`)

The destination root is modelled as the list of its existing entries; each
entry carries a name and whether it is a directory.  `Path.exists()` in the
source is true for any entry, directory or not. -/

/-- One existing entry under the destination root. -/
structure FsEntry where
  name : String
  isDir : Bool
deriving DecidableEq

/-- `(data_path / nm).exists()`: any entry with that name, file or directory. -/
def pathExists (root : List FsEntry) (nm : String) : Bool :=
  root.any fun e => e.name == nm

/-- Is there an existing directory named `nm` under the root? -/
def dirExists (root : List FsEntry) (nm : String) : Bool :=
  root.any fun e => e.name == nm && e.isDir

/-- The `while` loop of `_safe_bottle_name`: starting at index `i`, advance
past every taken candidate name `app_id-i`.  The source loop is unbounded;
here it carries a fuel argument, and `root.length + 1` fuel is proven
sufficient (`nextFree_spec`, `exists_free_index`), so the fuelled loop
computes exactly the loop's result. -/
def nextFree (app_id : String) (root : List FsEntry) : Nat → Nat → Nat
  | i, 0 => i
  | i, fuel + 1 =>
      if pathExists root (app_id ++ "-" ++ Nat.repr i) then
        nextFree app_id root (i + 1) fuel
      else i

/-- `installer._safe_bottle_name`: try `app_id` first, then `app_id-2`,
`app_id-3`, … until a name not present under the root is found. -/
def _safe_bottle_name (app_id : String) (root : List FsEntry) : String :=
  if pathExists root app_id then
    app_id ++ "-" ++ Nat.repr (nextFree app_id root 2 (root.length + 1))
  else app_id

theorem pathExists_iff (root : List FsEntry) (nm : String) :
    pathExists root nm = true ↔ nm ∈ root.map FsEntry.name := by
  simp only [pathExists, List.any_eq_true, beq_iff_eq, List.mem_map]

/-- Pigeonhole: among the `root.length + 1` candidate indices starting at 2,
some candidate name is not present under the root (candidate names are
pairwise distinct by `name_string_injective`). -/
theorem exists_free_index (app_id : String) (root : List FsEntry) :
    ∃ j, j ≤ root.length ∧ pathExists root (app_id ++ "-" ++ Nat.repr (2 + j)) = false := by
  by_contra hc
  push_neg at hc
  have hall : ∀ j, j ≤ root.length →
      (app_id ++ "-" ++ Nat.repr (2 + j)) ∈ root.map FsEntry.name := by
    intro j hj
    have := hc j hj
    exact (pathExists_iff root _).mp (by
      cases hpe : pathExists root (app_id ++ "-" ++ Nat.repr (2 + j))
      · exact absurd hpe this
      · rfl)
  have hinj : Function.Injective fun j : Nat => app_id ++ "-" ++ Nat.repr (2 + j) := by
    intro a b h
    have := name_string_injective app_id h
    omega
  have hsub : (Finset.range (root.length + 1)).image
      (fun j => app_id ++ "-" ++ Nat.repr (2 + j)) ⊆ (root.map FsEntry.name).toFinset := by
    intro x hx
    rw [Finset.mem_image] at hx
    obtain ⟨j, hj, rfl⟩ := hx
    rw [Finset.mem_range] at hj
    exact List.mem_toFinset.mpr (hall j (by omega))
  have hcard := Finset.card_le_card hsub
  rw [Finset.card_image_of_injective _ hinj, Finset.card_range] at hcard
  have hlen : (root.map FsEntry.name).toFinset.card ≤ root.length := by
    have := (root.map FsEntry.name).toFinset_card_le
    simpa using this
  omega

theorem nextFree_spec (app_id : String) (root : List FsEntry) :
    ∀ (fuel i : Nat),
      (∃ j, i ≤ j ∧ j < i + fuel ∧ pathExists root (app_id ++ "-" ++ Nat.repr j) = false) →
      i ≤ nextFree app_id root i fuel
      ∧ pathExists root (app_id ++ "-" ++ Nat.repr (nextFree app_id root i fuel)) = false
      ∧ ∀ m, i ≤ m → m < nextFree app_id root i fuel →
          pathExists root (app_id ++ "-" ++ Nat.repr m) = true := by
  intro fuel
  induction fuel with
  | zero =>
      rintro i ⟨j, hij, hjlt, _⟩
      omega
  | succ fuel ih =>
      rintro i ⟨j, hij, hjlt, hjfree⟩
      by_cases hi : pathExists root (app_id ++ "-" ++ Nat.repr i) = true
      · have hji : j ≠ i := by
          intro he
          rw [he, hi] at hjfree
          cases hjfree
        have hrec := ih (i + 1) ⟨j, by omega, by omega, hjfree⟩
        rw [show nextFree app_id root i (fuel + 1) = nextFree app_id root (i + 1) fuel from by
          rw [nextFree, if_pos hi]]
        refine ⟨by omega, hrec.2.1, ?_⟩
        intro m him hmlt
        by_cases hmi : m = i
        · rw [hmi]; exact hi
        · exact hrec.2.2 m (by omega) hmlt
      · have hif : pathExists root (app_id ++ "-" ++ Nat.repr i) = false :=
          Bool.eq_false_iff.mpr hi
        rw [show nextFree app_id root i (fuel + 1) = i from by rw [nextFree, if_neg hi]]
        exact ⟨le_refl i, hif, fun m him hmlt => by omega⟩

/-- Amended C3: with "exists under the root" read as the source's
`Path.exists()` (any entry, file or directory), the chosen placement name is
`app_id` when free, else `app_id-n` for the least free `n ≥ 2`, and it never
equals an existing entry's name. -/
theorem safe_bottle_name_spec (app_id : String) (root : List FsEntry) :
    (pathExists root app_id = false → _safe_bottle_name app_id root = app_id)
    ∧ (pathExists root app_id = true →
        ∃ n, 2 ≤ n ∧ _safe_bottle_name app_id root = app_id ++ "-" ++ Nat.repr n
          ∧ pathExists root (app_id ++ "-" ++ Nat.repr n) = false
          ∧ ∀ m, 2 ≤ m → m < n → pathExists root (app_id ++ "-" ++ Nat.repr m) = true)
    ∧ pathExists root (_safe_bottle_name app_id root) = false := by
  have hmain : pathExists root app_id = true →
      ∃ n, 2 ≤ n ∧ _safe_bottle_name app_id root = app_id ++ "-" ++ Nat.repr n
        ∧ pathExists root (app_id ++ "-" ++ Nat.repr n) = false
        ∧ ∀ m, 2 ≤ m → m < n → pathExists root (app_id ++ "-" ++ Nat.repr m) = true := by
    intro hex
    obtain ⟨j, hj, hjfree⟩ := exists_free_index app_id root
    have hspec := nextFree_spec app_id root (root.length + 1) 2
      ⟨2 + j, by omega, by omega, hjfree⟩
    refine ⟨nextFree app_id root 2 (root.length + 1), hspec.1, ?_, hspec.2.1, ?_⟩
    · rw [_safe_bottle_name, if_pos hex]
    · intro m hm hmlt
      exact hspec.2.2 m hm hmlt
  refine ⟨?_, hmain, ?_⟩
  · intro hfree
    rw [_safe_bottle_name, if_neg (by simp [hfree])]
  · by_cases hex : pathExists root app_id = true
    · obtain ⟨n, _, heq, hfree, _⟩ := hmain hex
      rw [heq]
      exact hfree
    · have hfree : pathExists root app_id = false := Bool.eq_false_iff.mpr hex
      rw [_safe_bottle_name, if_neg (by simp [hfree])]
      exact hfree

/-- Counterexample to C3 as stated: the source checks `Path.exists()`, which
is also true for a plain file.  With a single *file* named `app` under the
root, no directory named `app` exists, yet the chosen placement name is
`app-2`, not `app`. -/
theorem safe_bottle_name_claim_counterexample :
    dirExists [⟨"app", false⟩] "app" = false
    ∧ _safe_bottle_name "app" [⟨"app", false⟩] = "app-2" := by
  constructor
  · decide
  · decide

/-- Witness for the amended C3 at a concrete input: with a directory named
`app` present, the chosen name is a fresh `app-n`. -/
theorem safe_bottle_name_spec_witness :
    (∃ n, 2 ≤ n ∧ _safe_bottle_name "app" [⟨"app", true⟩] = "app" ++ "-" ++ Nat.repr n
        ∧ pathExists [⟨"app", true⟩] ("app" ++ "-" ++ Nat.repr n) = false
        ∧ ∀ m, 2 ≤ m → m < n → pathExists [⟨"app", true⟩] ("app" ++ "-" ++ Nat.repr m) = true)
    ∧ pathExists [⟨"app", true⟩] (_safe_bottle_name "app" [⟨"app", true⟩]) = false :=
  ⟨(safe_bottle_name_spec "app" [⟨"app", true⟩]).2.1 (by decide),
   (safe_bottle_name_spec "app" [⟨"app", true⟩]).2.2⟩

/-! ### Install/update pipeline data

The pipelines (`installer.install_app`, `updater.update_app_safe`) are
embedded as pure functions.  External effects are parameters: the SHA-256
digest function (`hashlib`), the tar parser (`tarfile`), the streamed network
bytes (chunk list), and the cancellation flag, modelled as a function from
checkpoint index to the flag state at that observation (`threading.Event`
is set by another thread; successive `is_set()` calls observe it at
successive times). -/

/-- Unrecoverable install/update failures (`InstallError` / `UpdateError`),
carrying the diagnostic values the source puts in the message. -/
inductive IErr where
  | unsupportedScheme (scheme : String)
  | shaMismatch (expected actual : String)
  | noDirectories
  | ambiguousBottleDir (nDirs nYml : Nat)
  | tarError (msg : String)
deriving DecidableEq

/-- An in-flight exception: `InstallCancelled` or an `InstallError`. -/
inductive Exc where
  | cancelled
  | err (e : IErr)
deriving DecidableEq

/-- Observable pipeline milestones, used to state ordering properties. -/
inductive Ev where
  | acquired
  | verified
  | extractStarted
  | copied
  | overlayStarted
deriving DecidableEq

/-- Outcome of a pipeline call: normal return, `InstallCancelled`, or an
error propagated to the caller. -/
inductive Outcome where
  | done (bottleName : String)
  | cancelled
  | failed (e : IErr)
deriving DecidableEq

/-- One top-level entry of the extracted tree (`extract_dir.iterdir()`):
its name, whether it is a directory, whether it contains `bottle.yml`, and
the relative-path/content listing of the files below it. -/
structure TopEntry where
  name : String
  isDir : Bool
  hasBottleYml : Bool
  files : List (RelPath × Bytes)
deriving DecidableEq

/-- The fields of the catalogue entry the pipelines read
(`AppEntry.archive_size`, `AppEntry.archive_sha256`, `AppEntry.id`). -/
structure EntryI where
  id : String
  archive_size : Int
  archive_sha256 : String
deriving DecidableEq

/-! ### Identify (`installer._find_bottle_dir`) -/

/-- `installer._find_bottle_dir`: exactly one top-level directory is the
bottle; with several, the unique one containing `bottle.yml` is preferred;
otherwise an `InstallError` reports both candidate counts. -/
def _find_bottle_dir (entries : List TopEntry) : Except IErr TopEntry :=
  let dirs := entries.filter fun d => d.isDir
  match dirs with
  | [] => .error .noDirectories
  | [d] => .ok d
  | _ =>
      let withYml := dirs.filter fun d => d.hasBottleYml
      match withYml with
      | [y] => .ok y
      | _ => .error (.ambiguousBottleDir dirs.length withYml.length)

/-! ### Acquire (`installer._acquire_archive`, `_http_stream`,
`_file_stream`, `_gio_stream`) -/

deriving instance DecidableEq for Except

/-- Result of one streamed transfer: the next checkpoint index, the state of
the destination temp file after the call (`none` when it was unlinked or
never completed), and the outcome. -/
structure StreamOut where
  nextIdx : Nat
  dest : Option Bytes
  result : Except Exc Bytes
deriving DecidableEq

/-- The shared chunk loop of `_http_stream` / `_file_stream` / `_gio_stream`:
before every 1 MB read the cancellation flag is checked (one final check
precedes the empty read that ends the loop); on cancellation the partial
destination file is unlinked and `InstallCancelled` is raised. -/
def streamChunks (cancel : Nat → Bool) : List Bytes → Nat → Bytes → StreamOut
  | chunks, i, acc =>
    if cancel i then ⟨i + 1, none, .error .cancelled⟩
    else
      match chunks with
      | [] => ⟨i + 1, some acc, .ok acc⟩
      | c :: rest => streamChunks cancel rest (i + 1) (acc ++ c)

/-- Result of `_acquire_archive`. -/
structure AcquireOut where
  nextIdx : Nat
  tmpArchive : Option Bytes
  result : Except Exc Bytes
deriving DecidableEq

/-- `installer._acquire_archive`: dispatch on the lowercased URI scheme.
Bare paths and `file://` are used in place (no temp copy); `http(s)` streams
to the temp file; `smb`/`nfs` also stream (via a GVFS FUSE path or a GIO
input stream, the same chunk/cancel loop); any other scheme raises the
unsupported-scheme `InstallError`. -/
def _acquire_archive (uriScheme : String) (localBytes : Bytes) (chunks : List Bytes)
    (cancel : Nat → Bool) (i : Nat) : AcquireOut :=
  let scheme := strLower uriScheme
  if scheme = "" ∨ scheme = "file" then ⟨i, none, .ok localBytes⟩
  else if scheme = "http" ∨ scheme = "https" then
    let s := streamChunks cancel chunks i []
    ⟨s.nextIdx, s.dest, s.result⟩
  else if scheme = "smb" ∨ scheme = "nfs" then
    let s := streamChunks cancel chunks i []
    ⟨s.nextIdx, s.dest, s.result⟩
  else ⟨i, none, .error (.err (.unsupportedScheme scheme))⟩

/-! ### Verify (`installer._verify_sha256`) -/

/-- `installer._verify_sha256`: compare the streaming digest of the acquired
file against the expected hex digest; a mismatch raises an `InstallError`
carrying both values. -/
def _verify_sha256 (sha : Bytes → String) (content : Bytes) (expected : String) :
    Except IErr Unit :=
  let actual := sha content
  if actual = expected then .ok () else .error (.shaMismatch expected actual)

/-! ### Extract (`installer._extract_archive`) -/

/-- Per-member loop of `_extract_archive`: the cancellation flag is checked
before each member is extracted. -/
def extractLoop (cancel : Nat → Bool) : List TopEntry → Nat → Nat × Except Exc Unit
  | [], i => (i, .ok ())
  | _ :: rest, i =>
      if cancel i then (i + 1, .error .cancelled) else extractLoop cancel rest (i + 1)

/-- `installer._extract_archive`: check cancellation on entry, then unpack
member by member; a tar parse failure raises an `InstallError`. -/
def _extract_archive (cancel : Nat → Bool) (i : Nat)
    (parsed : Except String (List TopEntry)) : Nat × Except Exc (List TopEntry) :=
  if cancel i then (i + 1, .error .cancelled)
  else
    match parsed with
    | .error msg => (i + 1, .error (.err (.tarError msg)))
    | .ok members =>
        match extractLoop cancel members (i + 1) with
        | (j, .error e) => (j, .error e)
        | (j, .ok _) => (j, .ok members)

/-! ### The install pipeline (`installer.install_app`) -/

/-- What a finished `install_app` call looks like from outside: the milestone
events in order, the outcome, and whether the session temporary directory is
still on disk (the `with tempfile.TemporaryDirectory()` block removes it on
every exit path, so it never is). -/
structure InstallRun where
  events : List Ev
  outcome : Outcome
  tmpDirRemains : Bool
deriving DecidableEq

/-- Steps 3–6 of `install_app`: cancellation checkpoint, extract, identify,
choose a collision-safe name, copy into the destination root. -/
def install_rest (parseTar : Bytes → Except String (List TopEntry)) (entry : EntryI)
    (cancel : Nat → Bool) (root : List FsEntry) (bytes : Bytes) (evs : List Ev)
    (i : Nat) : List Ev × Outcome :=
  if cancel i then (evs, .cancelled)
  else
    let evs := evs ++ [Ev.extractStarted]
    match _extract_archive cancel (i + 1) (parseTar bytes) with
    | (_, .error .cancelled) => (evs, .cancelled)
    | (_, .error (.err e)) => (evs, .failed e)
    | (j, .ok members) =>
        match _find_bottle_dir members with
        | .error e => (evs, .failed e)
        | .ok _ =>
            let nm := _safe_bottle_name entry.id root
            if cancel j then (evs, .cancelled)
            else (evs ++ [Ev.copied], .done nm)

/-- The body of `install_app` inside its temporary-directory block:
check cancellation, acquire, verify when a hash is supplied, then extract,
identify, name and copy. -/
def install_body (sha : Bytes → String) (parseTar : Bytes → Except String (List TopEntry))
    (entry : EntryI) (uriScheme : String) (localBytes : Bytes) (chunks : List Bytes)
    (cancel : Nat → Bool) (root : List FsEntry) : List Ev × Outcome :=
  if cancel 0 then ([], .cancelled)
  else
    let acq := _acquire_archive uriScheme localBytes chunks cancel 1
    match acq.result with
    | .error .cancelled => ([], .cancelled)
    | .error (.err e) => ([], .failed e)
    | .ok bytes =>
        let evs := [Ev.acquired]
        if entry.archive_sha256 ≠ "" then
          if cancel acq.nextIdx then (evs, .cancelled)
          else
            match _verify_sha256 sha bytes entry.archive_sha256 with
            | .error e => (evs, .failed e)
            | .ok _ =>
                install_rest parseTar entry cancel root bytes (evs ++ [Ev.verified])
                  (acq.nextIdx + 1)
        else install_rest parseTar entry cancel root bytes evs acq.nextIdx

/-- `installer.install_app`: the body runs inside
`with tempfile.TemporaryDirectory()`, whose exit removes the session
temporary directory (and everything in it) on every path — success, error or
cancellation. -/
def install_app (sha : Bytes → String) (parseTar : Bytes → Except String (List TopEntry))
    (entry : EntryI) (uriScheme : String) (localBytes : Bytes) (chunks : List Bytes)
    (cancel : Nat → Bool) (root : List FsEntry) : InstallRun :=
  let r := install_body sha parseTar entry uriScheme localBytes chunks cancel root
  ⟨r.1, r.2, false⟩

/-! ### The update pipeline (`updater.update_app_safe`, `backup_bottle`,
`_overlay`) -/

/-- Outcome of an update call (`update_app_safe` returns `None`). -/
inductive UOutcome where
  | done
  | cancelled
  | failed (e : IErr)
deriving DecidableEq

/-- View a finite file listing as a destination state. -/
def listFS (files : List (RelPath × Bytes)) : FS := fun p => List.lookup p files

/-- Per-file loop of `backup_bottle`: the cancellation flag is checked before
each file is added to the archive. -/
def backupLoop (cancel : Nat → Bool) : List (RelPath × Bytes) → Nat → Nat × Except Exc Unit
  | [], i => (i, .ok ())
  | _ :: rest, i =>
      if cancel i then (i + 1, .error .cancelled) else backupLoop cancel rest (i + 1)

/-- `updater.backup_bottle`: check cancellation on entry, then archive the
bottle file by file (on cancellation the partial archive is removed and
`UpdateCancelled` is raised). -/
def backup_bottle (cancel : Nat → Bool) (i : Nat) (files : List (RelPath × Bytes)) :
    Nat × Except Exc Unit :=
  if cancel i then (i + 1, .error .cancelled) else backupLoop cancel files (i + 1)

/-- `updater._overlay`: use the rsync path when rsync is on the `PATH`, else
the pure-Python fallback.  (The final-state properties proved here concern
completed merges, so the overlay is applied after the checkpoint that
precedes it.) -/
def _overlay (rsyncAvailable : Bool) (files : List (RelPath × Bytes)) (dst : FS) : FS :=
  if rsyncAvailable then _overlay_rsync files dst else _overlay_python files dst

/-- Phases 4–5 of `update_app_safe`: cancellation checkpoint, extract,
identify, checkpoint, overlay-merge onto the installed bottle. -/
def update_rest (parseTar : Bytes → Except String (List TopEntry)) (cancel : Nat → Bool)
    (rsyncAvailable : Bool) (bytes : Bytes) (evs : List Ev) (i : Nat) (dst0 : FS) :
    List Ev × UOutcome × FS :=
  if cancel i then (evs, .cancelled, dst0)
  else
    let evs := evs ++ [Ev.extractStarted]
    match _extract_archive cancel (i + 1) (parseTar bytes) with
    | (_, .error .cancelled) => (evs, .cancelled, dst0)
    | (_, .error (.err e)) => (evs, .failed e, dst0)
    | (j, .ok members) =>
        match _find_bottle_dir members with
        | .error e => (evs, .failed e, dst0)
        | .ok d =>
            if cancel j then (evs, .cancelled, dst0)
            else (evs ++ [Ev.overlayStarted], .done, _overlay rsyncAvailable d.files dst0)

/-- Phases 2–5 of `update_app_safe`, from acquisition onward, starting at
checkpoint `i2` (the index depends on whether a backup phase ran). -/
def update_from_acquire (sha : Bytes → String)
    (parseTar : Bytes → Except String (List TopEntry)) (entry : EntryI)
    (uriScheme : String) (localBytes : Bytes) (chunks : List Bytes) (cancel : Nat → Bool)
    (rsyncAvailable : Bool) (dst0 : FS) (i2 : Nat) : List Ev × UOutcome × FS :=
  let acq := _acquire_archive uriScheme localBytes chunks cancel i2
  match acq.result with
  | .error .cancelled => ([], .cancelled, dst0)
  | .error (.err e) => ([], .failed e, dst0)
  | .ok bytes =>
      let evs := [Ev.acquired]
      if cancel acq.nextIdx then (evs, .cancelled, dst0)
      else if entry.archive_sha256 ≠ "" then
        match _verify_sha256 sha bytes entry.archive_sha256 with
        | .error e => (evs, .failed e, dst0)
        | .ok _ =>
            update_rest parseTar cancel rsyncAvailable bytes (evs ++ [Ev.verified])
              (acq.nextIdx + 1) dst0
      else update_rest parseTar cancel rsyncAvailable bytes evs (acq.nextIdx + 1) dst0

/-- `updater.update_app_safe`: optional backup, acquire (reusing the
installer's acquisition), verify when a hash is supplied, extract, identify,
overlay-merge.  Returns the milestone events, the outcome and the resulting
destination state. -/
def update_app_safe (sha : Bytes → String) (parseTar : Bytes → Except String (List TopEntry))
    (entry : EntryI) (uriScheme : String) (localBytes : Bytes) (chunks : List Bytes)
    (cancel : Nat → Bool) (backupRequested : Bool) (dstFiles : List (RelPath × Bytes))
    (rsyncAvailable : Bool) : List Ev × UOutcome × FS :=
  let dst0 : FS := listFS dstFiles
  if cancel 0 then ([], .cancelled, dst0)
  else
    let br := if backupRequested then backup_bottle cancel 1 dstFiles else (1, Except.ok ())
    match br.2 with
    | .error _ => ([], .cancelled, dst0)
    | .ok _ =>
        if backupRequested && cancel br.1 then ([], .cancelled, dst0)
        else
          update_from_acquire sha parseTar entry uriScheme localBytes chunks cancel
            rsyncAvailable dst0 (if backupRequested then br.1 + 1 else br.1)

/-! ### C4: bundle identification -/

/-- C4: `_find_bottle_dir` returns the unique top-level directory when
exactly one exists (whatever its name); with two or more it returns the
unique `bottle.yml`-bearing one when exactly one exists; otherwise it fails
(no directories, or zero or several manifest-bearing candidates), reporting
the candidate counts. -/
theorem find_bottle_dir_spec (entries : List TopEntry) :
    (∀ d, entries.filter (fun e => e.isDir) = [d] → _find_bottle_dir entries = .ok d)
    ∧ (2 ≤ (entries.filter fun e => e.isDir).length →
        ∀ y, ((entries.filter fun e => e.isDir).filter fun e => e.hasBottleYml) = [y] →
          _find_bottle_dir entries = .ok y)
    ∧ (entries.filter (fun e => e.isDir) = [] →
        _find_bottle_dir entries = .error .noDirectories)
    ∧ (2 ≤ (entries.filter fun e => e.isDir).length →
        ((entries.filter fun e => e.isDir).filter fun e => e.hasBottleYml).length ≠ 1 →
        _find_bottle_dir entries = .error (.ambiguousBottleDir
          (entries.filter fun e => e.isDir).length
          ((entries.filter fun e => e.isDir).filter fun e => e.hasBottleYml).length)) := by
  refine ⟨?_, ?_, ?_, ?_⟩
  · intro d hd
    simp only [_find_bottle_dir, hd]
  · intro hlen y hy
    simp only [_find_bottle_dir]
    cases hd : entries.filter (fun e => e.isDir) with
    | nil => rw [hd] at hlen; simp at hlen
    | cons a tl =>
        cases tl with
        | nil => rw [hd] at hlen; simp at hlen
        | cons b tl2 =>
            rw [hd] at hy
            simp only [hy]
  · intro hd
    simp only [_find_bottle_dir, hd]
  · intro hlen hylen
    simp only [_find_bottle_dir]
    cases hd : entries.filter (fun e => e.isDir) with
    | nil => rw [hd] at hlen; simp at hlen
    | cons a tl =>
        cases tl with
        | nil => rw [hd] at hlen; simp at hlen
        | cons b tl2 =>
            rw [hd] at hylen
            cases hy : ((a :: b :: tl2).filter fun e => e.hasBottleYml) with
            | nil => rfl
            | cons y tly =>
                cases tly with
                | nil => rw [hy] at hylen; simp at hylen
                | cons z tlz => rfl

/-- Witness for C4 at concrete inputs: a single top-level directory is
returned; with two directories of which one carries `bottle.yml`, that one
is returned. -/
theorem find_bottle_dir_spec_witness :
    _find_bottle_dir [⟨"anyname", true, false, []⟩] = .ok ⟨"anyname", true, false, []⟩
    ∧ _find_bottle_dir [⟨"a", true, false, []⟩, ⟨"b", true, true, []⟩]
        = .ok ⟨"b", true, true, []⟩ :=
  ⟨(find_bottle_dir_spec [⟨"anyname", true, false, []⟩]).1 _ (by decide),
   (find_bottle_dir_spec [⟨"a", true, false, []⟩, ⟨"b", true, true, []⟩]).2.1
      (by decide) _ (by decide)⟩

/-! ### C6: acquisition scheme dispatch -/

/-- Counterexample to C6 as stated: the dispatch in `_acquire_archive` also
accepts the `nfs` scheme (streaming it like `smb`), so an `nfs` archive
location is not rejected with the unsupported-scheme failure. -/
theorem acquire_nfs_counterexample :
    (_acquire_archive "nfs" [] [[7]] (fun _ => false) 0).result = .ok [7]
    ∧ (_acquire_archive "nfs" [] [[7]] (fun _ => false) 0).result
        ≠ .error (.err (.unsupportedScheme "nfs")) := by
  constructor
  · decide
  · decide

/-- Amended C6: every URI scheme outside bare/local paths, `file`, `http`,
`https`, `smb` and `nfs` is rejected by `_acquire_archive` with the
unsupported-scheme install failure. -/
theorem acquire_unsupported_scheme (uriScheme : String) (localBytes : Bytes)
    (chunks : List Bytes) (cancel : Nat → Bool) (i : Nat)
    (h : strLower uriScheme ∉ ["", "file", "http", "https", "smb", "nfs"]) :
    (_acquire_archive uriScheme localBytes chunks cancel i).result
      = .error (.err (.unsupportedScheme (strLower uriScheme))) := by
  simp only [List.mem_cons, List.mem_singleton, not_or] at h
  obtain ⟨h1, h2, h3, h4, h5, h6⟩ := h
  simp only [_acquire_archive, h1, h2, h3, h4, h5]
  simp [h6]

/-- Witness for the amended C6: an `ssh` archive location is rejected. -/
theorem acquire_unsupported_scheme_witness :
    (_acquire_archive "ssh" [] [] (fun _ => false) 0).result
      = .error (.err (.unsupportedScheme (strLower "ssh"))) :=
  acquire_unsupported_scheme "ssh" [] [] (fun _ => false) 0 (by decide)

/-! ### C7: cancellation during an HTTP download -/

theorem streamChunks_cancelled (cancel : Nat → Bool) :
    ∀ (chunks : List Bytes) (i : Nat) (acc : Bytes),
      (∃ k, i ≤ k ∧ k ≤ i + chunks.length ∧ cancel k = true) →
      (streamChunks cancel chunks i acc).result = .error .cancelled
      ∧ (streamChunks cancel chunks i acc).dest = none := by
  intro chunks
  induction chunks with
  | nil =>
      rintro i acc ⟨k, hik, hkl, hk⟩
      have : k = i := by simpa using Nat.le_antisymm hkl hik
      rw [this] at hk
      rw [streamChunks, if_pos hk]
      exact ⟨rfl, rfl⟩
  | cons c rest ih =>
      rintro i acc ⟨k, hik, hkl, hk⟩
      by_cases hi : cancel i = true
      · rw [streamChunks, if_pos hi]
        exact ⟨rfl, rfl⟩
      · have hki : k ≠ i := fun he => hi (he ▸ hk)
        rw [streamChunks, if_neg hi]
        have hlen : (c :: rest).length = rest.length + 1 := rfl
        exact ih (i + 1) (acc ++ c) ⟨k, by omega, by omega, hk⟩

/-- C7: if the cancellation flag is observed set at some checkpoint during an
HTTP(S) download (checkpoints `1 … 1 + chunks.length` are the per-chunk
checks of `_http_stream`), then `install_app` reports the distinct cancelled
outcome — not a failure — the partially downloaded temp archive is unlinked
by `_http_stream`, and the session temporary directory does not survive the
call. -/
theorem install_http_cancel_spec (sha : Bytes → String)
    (parseTar : Bytes → Except String (List TopEntry)) (entry : EntryI)
    (uriScheme : String) (localBytes : Bytes) (chunks : List Bytes)
    (cancel : Nat → Bool) (root : List FsEntry)
    (hscheme : strLower uriScheme = "http" ∨ strLower uriScheme = "https")
    (hcancel : ∃ k, 1 ≤ k ∧ k ≤ 1 + chunks.length ∧ cancel k = true) :
    (install_app sha parseTar entry uriScheme localBytes chunks cancel root).outcome
        = .cancelled
    ∧ (install_app sha parseTar entry uriScheme localBytes chunks cancel root).tmpDirRemains
        = false
    ∧ (streamChunks cancel chunks 1 []).dest = none := by
  have hstream := streamChunks_cancelled cancel chunks 1 [] hcancel
  have hnotlocal : ¬(strLower uriScheme = "" ∨ strLower uriScheme = "file") := by
    rcases hscheme with h | h <;> rw [h] <;> decide
  have hacq : (_acquire_archive uriScheme localBytes chunks cancel 1).result
      = .error .cancelled := by
    rw [_acquire_archive, if_neg hnotlocal, if_pos hscheme]
    exact hstream.1
  refine ⟨?_, rfl, hstream.2⟩
  simp only [install_app, install_body]
  by_cases h0 : cancel 0 = true
  · rw [if_pos h0]
  · rw [if_neg h0, hacq]

/-- Witness for C7 at a concrete input: the flag flips during the second of
two chunks. -/
theorem install_http_cancel_spec_witness :
    (install_app (fun _ => "h") (fun _ => .ok []) ⟨"app", 2, ""⟩ "http" [] [[1], [2]]
        (fun k => decide (2 ≤ k)) []).outcome = .cancelled
    ∧ (install_app (fun _ => "h") (fun _ => .ok []) ⟨"app", 2, ""⟩ "http" [] [[1], [2]]
        (fun k => decide (2 ≤ k)) []).tmpDirRemains = false
    ∧ (streamChunks (fun k => decide (2 ≤ k)) [[1], [2]] 1 []).dest = none :=
  install_http_cancel_spec (fun _ => "h") (fun _ => .ok []) ⟨"app", 2, ""⟩ "http" [] [[1], [2]]
    (fun k => decide (2 ≤ k)) [] (Or.inl (by decide)) ⟨2, by decide, by decide, by decide⟩

/-! ### C2: verification gates extraction -/

theorem streamChunks_nocancel_result : ∀ (chunks : List Bytes) (i j : Nat) (acc : Bytes),
    (streamChunks (fun _ => false) chunks i acc).result
      = (streamChunks (fun _ => false) chunks j acc).result := by
  intro chunks
  induction chunks with
  | nil => intro i j acc; rfl
  | cons c rest ih => intro i j acc; exact ih (i + 1) (j + 1) (acc ++ c)

theorem acquire_nocancel_result (uriScheme : String) (localBytes : Bytes)
    (chunks : List Bytes) (i j : Nat) :
    (_acquire_archive uriScheme localBytes chunks (fun _ => false) i).result
      = (_acquire_archive uriScheme localBytes chunks (fun _ => false) j).result := by
  simp only [_acquire_archive]
  split_ifs with h1 h2 h3
  · rfl
  · exact streamChunks_nocancel_result chunks i j []
  · exact streamChunks_nocancel_result chunks i j []
  · rfl

theorem backupLoop_nocancel : ∀ (files : List (RelPath × Bytes)) (i : Nat),
    (backupLoop (fun _ => false) files i).2 = .ok () := by
  intro files
  induction files with
  | nil => intro i; rfl
  | cons f rest ih => intro i; exact ih (i + 1)

theorem backup_bottle_nocancel (i : Nat) (files : List (RelPath × Bytes)) :
    (backup_bottle (fun _ => false) i files).2 = .ok () :=
  backupLoop_nocancel files (i + 1)

theorem install_rest_no_verified (parseTar : Bytes → Except String (List TopEntry))
    (entry : EntryI) (cancel : Nat → Bool) (root : List FsEntry) (bytes : Bytes)
    (evs : List Ev) (i : Nat) (h : Ev.verified ∉ evs) :
    Ev.verified ∉ (install_rest parseTar entry cancel root bytes evs i).1 := by
  unfold install_rest
  split
  · exact h
  · split
    all_goals try split
    all_goals try split
    all_goals simp_all [List.mem_append]

theorem update_rest_no_verified (parseTar : Bytes → Except String (List TopEntry))
    (cancel : Nat → Bool) (rsyncAvailable : Bool) (bytes : Bytes) (evs : List Ev)
    (i : Nat) (dst0 : FS) (h : Ev.verified ∉ evs) :
    Ev.verified ∉ (update_rest parseTar cancel rsyncAvailable bytes evs i dst0).1 := by
  unfold update_rest
  split
  · exact h
  · split
    all_goals try split
    all_goals try split
    all_goals simp_all [List.mem_append]

theorem ite_cond_false {α : Sort _} (a b : α) : (if false = true then a else b) = b := rfl

theorem ite_cond_true {α : Sort _} (a b : α) : (if true = true then a else b) = a := rfl

theorem update_from_acquire_mismatch (sha : Bytes → String)
    (parseTar : Bytes → Except String (List TopEntry)) (entry : EntryI)
    (uriScheme : String) (localBytes : Bytes) (chunks : List Bytes)
    (rsyncAvailable : Bool) (dst0 : FS) (i2 : Nat) (bytes : Bytes)
    (hacq : (_acquire_archive uriScheme localBytes chunks (fun _ => false) 1).result
      = .ok bytes)
    (hsha : entry.archive_sha256 ≠ "") (hmis : sha bytes ≠ entry.archive_sha256) :
    update_from_acquire sha parseTar entry uriScheme localBytes chunks (fun _ => false)
        rsyncAvailable dst0 i2
      = ([Ev.acquired], .failed (.shaMismatch entry.archive_sha256 (sha bytes)), dst0) := by
  have hacq2 : (_acquire_archive uriScheme localBytes chunks (fun _ => false) i2).result
      = .ok bytes :=
    (acquire_nocancel_result uriScheme localBytes chunks i2 1).trans hacq
  have hver : _verify_sha256 sha bytes entry.archive_sha256
      = .error (.shaMismatch entry.archive_sha256 (sha bytes)) := by
    unfold _verify_sha256
    rw [if_neg hmis]
  simp only [update_from_acquire]
  rw [hacq2]
  simp [hsha, hver]

theorem update_from_acquire_no_verified (sha : Bytes → String)
    (parseTar : Bytes → Except String (List TopEntry)) (entry : EntryI)
    (uriScheme : String) (localBytes : Bytes) (chunks : List Bytes)
    (rsyncAvailable : Bool) (dst0 : FS) (i2 : Nat)
    (hempty : entry.archive_sha256 = "") :
    Ev.verified ∉ (update_from_acquire sha parseTar entry uriScheme localBytes chunks
        (fun _ => false) rsyncAvailable dst0 i2).1 := by
  simp only [update_from_acquire]
  cases hres : (_acquire_archive uriScheme localBytes chunks (fun _ => false) i2).result with
  | error e =>
      cases e with
      | cancelled => simp
      | err e => simp
  | ok bytes' =>
      simp only [hempty, ite_cond_false]
      simp only [ne_eq, not_true_eq_false, Bool.false_eq_true, if_false]
      apply update_rest_no_verified
      decide

/-- C2: in both pipelines, with no cancellation and a successfully acquired
archive, a non-empty catalogue hash that differs from the archive's digest
makes the call fail with the integrity error carrying both the expected and
the actual digest, and extraction never starts; with an empty hash the
verification step never runs at all. -/
theorem verify_gate_spec (sha : Bytes → String)
    (parseTar : Bytes → Except String (List TopEntry)) (entry : EntryI)
    (uriScheme : String) (localBytes : Bytes) (chunks : List Bytes)
    (root : List FsEntry) (backupRequested : Bool)
    (dstFiles : List (RelPath × Bytes)) (rsyncAvailable : Bool) (bytes : Bytes) :
    ((_acquire_archive uriScheme localBytes chunks (fun _ => false) 1).result = .ok bytes →
      entry.archive_sha256 ≠ "" →
      sha bytes ≠ entry.archive_sha256 →
        (install_app sha parseTar entry uriScheme localBytes chunks (fun _ => false)
            root).outcome
          = .failed (.shaMismatch entry.archive_sha256 (sha bytes))
        ∧ Ev.extractStarted ∉ (install_app sha parseTar entry uriScheme localBytes chunks
            (fun _ => false) root).events
        ∧ (update_app_safe sha parseTar entry uriScheme localBytes chunks (fun _ => false)
            backupRequested dstFiles rsyncAvailable).2.1
          = .failed (.shaMismatch entry.archive_sha256 (sha bytes))
        ∧ Ev.extractStarted ∉ (update_app_safe sha parseTar entry uriScheme localBytes chunks
            (fun _ => false) backupRequested dstFiles rsyncAvailable).1)
    ∧ (entry.archive_sha256 = "" →
        Ev.verified ∉ (install_app sha parseTar entry uriScheme localBytes chunks
            (fun _ => false) root).events
        ∧ Ev.verified ∉ (update_app_safe sha parseTar entry uriScheme localBytes chunks
            (fun _ => false) backupRequested dstFiles rsyncAvailable).1) := by
  constructor
  · intro hacq hsha hmis
    have hver : _verify_sha256 sha bytes entry.archive_sha256
        = .error (.shaMismatch entry.archive_sha256 (sha bytes)) := by
      unfold _verify_sha256
      rw [if_neg hmis]
    have hinstall : install_body sha parseTar entry uriScheme localBytes chunks
        (fun _ => false) root
        = ([Ev.acquired], .failed (.shaMismatch entry.archive_sha256 (sha bytes))) := by
      simp only [install_body]
      rw [hacq]
      simp [hsha, hver]
    have hupdate : update_app_safe sha parseTar entry uriScheme localBytes chunks
        (fun _ => false) backupRequested dstFiles rsyncAvailable
        = ([Ev.acquired], .failed (.shaMismatch entry.archive_sha256 (sha bytes)),
            listFS dstFiles) := by
      cases backupRequested
      · exact update_from_acquire_mismatch sha parseTar entry uriScheme localBytes chunks
          rsyncAvailable (listFS dstFiles) 1 bytes hacq hsha hmis
      · have h2 := backup_bottle_nocancel 1 dstFiles
        simp only [update_app_safe, ite_cond_false, ite_cond_true, if_true, h2, Bool.true_and]
        exact update_from_acquire_mismatch sha parseTar entry uriScheme localBytes chunks
          rsyncAvailable (listFS dstFiles) _ bytes hacq hsha hmis
    refine ⟨?_, ?_, ?_, ?_⟩
    · simp [install_app, hinstall]
    · simp [install_app, hinstall]
    · rw [hupdate]
    · rw [hupdate]
      simp
  · intro hempty
    constructor
    · simp only [install_app, install_body, ite_cond_false]
      cases hres : (_acquire_archive uriScheme localBytes chunks (fun _ => false) 1).result with
      | error e =>
          cases e with
          | cancelled => simp
          | err e => simp
      | ok bytes' =>
          simp only [hempty, ne_eq, not_true_eq_false, Bool.false_eq_true, if_false,
            ite_cond_false]
          apply install_rest_no_verified
          decide
    · cases backupRequested
      · exact update_from_acquire_no_verified sha parseTar entry uriScheme localBytes chunks
          rsyncAvailable (listFS dstFiles) 1 hempty
      · have h2 := backup_bottle_nocancel 1 dstFiles
        simp only [update_app_safe, ite_cond_false, ite_cond_true, if_true, h2, Bool.true_and]
        exact update_from_acquire_no_verified sha parseTar entry uriScheme localBytes chunks
          rsyncAvailable (listFS dstFiles) _ hempty

/-- Witness for C2 at concrete inputs: a local archive whose digest does not
match the non-empty catalogue hash fails verification in both pipelines with
no extraction; an empty hash skips verification. -/
theorem verify_gate_spec_witness :
    ((install_app (fun _ => "aaaa") (fun _ => .ok []) ⟨"app", 0, "bbbb"⟩ "" [5] []
        (fun _ => false) []).outcome = .failed (.shaMismatch "bbbb" "aaaa")
      ∧ Ev.extractStarted ∉ (install_app (fun _ => "aaaa") (fun _ => .ok [])
          ⟨"app", 0, "bbbb"⟩ "" [5] [] (fun _ => false) []).events
      ∧ (update_app_safe (fun _ => "aaaa") (fun _ => .ok []) ⟨"app", 0, "bbbb"⟩ "" [5] []
          (fun _ => false) false [] false).2.1 = .failed (.shaMismatch "bbbb" "aaaa")
      ∧ Ev.extractStarted ∉ (update_app_safe (fun _ => "aaaa") (fun _ => .ok [])
          ⟨"app", 0, "bbbb"⟩ "" [5] [] (fun _ => false) false [] false).1)
    ∧ (Ev.verified ∉ (install_app (fun _ => "aaaa") (fun _ => .ok []) ⟨"app", 0, ""⟩ "" [5] []
        (fun _ => false) []).events
      ∧ Ev.verified ∉ (update_app_safe (fun _ => "aaaa") (fun _ => .ok []) ⟨"app", 0, ""⟩
          "" [5] [] (fun _ => false) false [] false).1) :=
  ⟨(verify_gate_spec (fun _ => "aaaa") (fun _ => .ok []) ⟨"app", 0, "bbbb"⟩ "" [5] [] []
      false [] false [5]).1 (by decide) (by decide) (by decide),
   (verify_gate_spec (fun _ => "aaaa") (fun _ => .ok []) ⟨"app", 0, ""⟩ "" [5] [] []
      false [] false [5]).2 (by decide)⟩

/-! ### JSON values and CPython-style coercions
(`models/app_entry.py`, `backend/repo.py`)

Catalogue records are JSON values.  `json.loads` yields dicts with unique
string keys (duplicate keys are collapsed by the parser), lists, strings,
ints, bools and `None`; `None` is modelled as `JVal.null`.  The couple of
dynamic behaviours `AppEntry.from_dict` relies on are modelled explicitly:
truthiness, `dict.get`, indexing, iteration (`tuple(...)`), `int(...)` and
`dict(...)`.  The corner cases of `int(str)` (whitespace/underscore
tolerance) and `dict(non-empty-sequence-of-pairs)` are modelled coarsely —
they raise the same caught exception classes (`ValueError`/`TypeError`)
either way, which is all the catalogue-level properties depend on. -/

/-- A JSON value. -/
inductive JVal where
  | null
  | bool (b : Bool)
  | num (n : Int)
  | str (s : String)
  | arr (xs : List JVal)
  | obj (kvs : List (String × JVal))

/-- Is this value Python's `None` (`value is None`)? -/
def JVal.isNull : JVal → Bool
  | .null => true
  | _ => false

/-- CPython truthiness (`if value:`). -/
def pyTruthy : JVal → Bool
  | .null => false
  | .bool b => b
  | .num n => n != 0
  | .str s => s != ""
  | .arr xs => !xs.isEmpty
  | .obj kvs => !kvs.isEmpty

/-- The exception classes `from_dict` can raise; `Repo.fetch_catalogue`
catches exactly `KeyError`, `TypeError` and `ValueError`. -/
inductive PyExc where
  | keyError
  | typeError
  | valueError
  | attributeError
deriving DecidableEq

/-- `data.get(key, default)`. -/
def pyGet (kvs : List (String × JVal)) (k : String) (dflt : JVal) : JVal :=
  (List.lookup k kvs).getD dflt

/-- `data[key]` — raises `KeyError` when absent. -/
def pyIndex (kvs : List (String × JVal)) (k : String) : Except PyExc JVal :=
  match List.lookup k kvs with
  | some v => .ok v
  | none => .error .keyError

/-- Iteration, as used by `tuple(...)` and `for item in items`: lists yield
elements, strings yield one-character strings, dicts yield their keys;
everything else raises `TypeError`. -/
def pyIter : JVal → Except PyExc (List JVal)
  | .arr xs => .ok xs
  | .str s => .ok (s.data.map fun c => .str ⟨[c]⟩)
  | .obj kvs => .ok (kvs.map fun kv => .str kv.1)
  | _ => .error .typeError

/-- `int(...)`: ints pass through, bools coerce, decimal strings parse
(`ValueError` otherwise), anything else raises `TypeError`. -/
def pyInt : JVal → Except PyExc Int
  | .num n => .ok n
  | .bool b => .ok (if b then 1 else 0)
  | .str s =>
      match s.toInt? with
      | some n => .ok n
      | none => .error .valueError
  | _ => .error .typeError

/-- `dict(...)`: dicts pass through, the empty string/list give an empty
dict, a non-empty string raises `ValueError`; a non-empty list of pairs is
modelled as `ValueError` (CPython accepts some such lists — coarse, see the
section comment), and non-iterables raise `TypeError`. -/
def pyDict : JVal → Except PyExc (List (String × JVal))
  | .obj kvs => .ok kvs
  | .str "" => .ok []
  | .str _ => .error .valueError
  | .arr [] => .ok []
  | .arr _ => .error .valueError
  | _ => .error .typeError

/-! ### `BuiltWith` (`models/app_entry.py`) -/

/-- The `BuiltWith` dataclass, fields as the JSON values stored in them. -/
structure PyBuiltWith where
  runner : JVal
  dxvk : JVal
  vkd3d : JVal

/-- `BuiltWith.from_dict`: `.get` on a non-dict raises `AttributeError`. -/
def builtWith_from_dict : JVal → Except PyExc PyBuiltWith
  | .obj kvs =>
      .ok ⟨pyGet kvs "runner" (.str ""), pyGet kvs "dxvk" (.str ""),
        pyGet kvs "vkd3d" (.str "")⟩
  | _ => .error .attributeError

/-- One optional record field: emitted only when the condition holds
(the `if value: d[key] = value` pattern of `to_dict` and `_opt_str` /
`_opt_seq`). -/
def optEntry (cond : Bool) (key : String) (v : JVal) : List (String × JVal) :=
  if cond then [(key, v)] else []

/-- `BuiltWith.to_dict`: `runner` always, `dxvk`/`vkd3d` only when truthy. -/
def builtWith_to_dict (bw : PyBuiltWith) : JVal :=
  .obj ([("runner", bw.runner)]
    ++ optEntry (pyTruthy bw.dxvk) "dxvk" bw.dxvk
    ++ optEntry (pyTruthy bw.vkd3d) "vkd3d" bw.vkd3d)

/-! ### `AppEntry` (`models/app_entry.py`) -/

/-- The `AppEntry` dataclass.  Fields that Python does not coerce hold the
raw JSON value; `tuple(...)` fields hold the iterated elements; `int(...)`
fields hold integers; `built_with` holds an optional `BuiltWith`;
`release_year`'s `None` is `JVal.null`. -/
structure PyEntry where
  id : JVal
  name : JVal
  version : JVal
  category : JVal
  summary : JVal
  description : JVal
  tags : List JVal
  developer : JVal
  publisher : JVal
  release_year : JVal
  content_rating : JVal
  languages : List JVal
  website : JVal
  store_links : List (String × JVal)
  icon : JVal
  cover : JVal
  hero : JVal
  screenshots : List JVal
  archive : JVal
  archive_size : Int
  archive_sha256 : JVal
  install_size_estimate : Int
  built_with : Option PyBuiltWith
  update_strategy : JVal
  entry_point : JVal
  compatibility_notes : JVal
  changelog : JVal

/-- The `update_strategy` validation (`strategy not in ("safe", "full")`;
equality of a non-string against these string literals is `False`). -/
def isSafeOrFull : JVal → Bool
  | .str "safe" => true
  | .str "full" => true
  | _ => false

/-- `AppEntry.from_dict`, with the source's evaluation order: the
`update_strategy` check first (a bad value raises `ValueError`), then the
keyword arguments left to right — required keys via indexing (`KeyError`),
`tuple(...)`/`dict(...)`/`int(...)` coercions, and `BuiltWith.from_dict`
on a truthy `built_with` value (raising `AttributeError` when that value is
not a dict).  Calling `from_dict` on a non-dict record raises
`AttributeError` at the first `.get`. -/
def from_dict : JVal → Except PyExc PyEntry
  | .obj kvs =>
      let strategy := pyGet kvs "update_strategy" (.str "safe")
      if isSafeOrFull strategy then
        let built_with_raw := pyGet kvs "built_with" .null
        match pyIndex kvs "id" with
        | .error e => .error e
        | .ok idv =>
        match pyIndex kvs "name" with
        | .error e => .error e
        | .ok namev =>
        match pyIndex kvs "version" with
        | .error e => .error e
        | .ok versionv =>
        match pyIndex kvs "category" with
        | .error e => .error e
        | .ok categoryv =>
        match pyIter (pyGet kvs "tags" (.arr [])) with
        | .error e => .error e
        | .ok tagsv =>
        match pyIter (pyGet kvs "languages" (.arr [])) with
        | .error e => .error e
        | .ok languagesv =>
        match pyDict (pyGet kvs "store_links" (.obj [])) with
        | .error e => .error e
        | .ok store_linksv =>
        match pyIter (pyGet kvs "screenshots" (.arr [])) with
        | .error e => .error e
        | .ok screenshotsv =>
        match pyInt (pyGet kvs "archive_size" (.num 0)) with
        | .error e => .error e
        | .ok archive_sizev =>
        match pyInt (pyGet kvs "install_size_estimate" (.num 0)) with
        | .error e => .error e
        | .ok install_sizev =>
        match (if pyTruthy built_with_raw
            then (builtWith_from_dict built_with_raw).map some
            else .ok none) with
        | .error e => .error e
        | .ok built_withv =>
            .ok { id := idv, name := namev, version := versionv, category := categoryv,
                  summary := pyGet kvs "summary" (.str ""),
                  description := pyGet kvs "description" (.str ""),
                  tags := tagsv,
                  developer := pyGet kvs "developer" (.str ""),
                  publisher := pyGet kvs "publisher" (.str ""),
                  release_year := pyGet kvs "release_year" .null,
                  content_rating := pyGet kvs "content_rating" (.str ""),
                  languages := languagesv,
                  website := pyGet kvs "website" (.str ""),
                  store_links := store_linksv,
                  icon := pyGet kvs "icon" (.str ""),
                  cover := pyGet kvs "cover" (.str ""),
                  hero := pyGet kvs "hero" (.str ""),
                  screenshots := screenshotsv,
                  archive := pyGet kvs "archive" (.str ""),
                  archive_size := archive_sizev,
                  archive_sha256 := pyGet kvs "archive_sha256" (.str ""),
                  install_size_estimate := install_sizev,
                  built_with := built_withv,
                  update_strategy := strategy,
                  entry_point := pyGet kvs "entry_point" (.str ""),
                  compatibility_notes := pyGet kvs "compatibility_notes" (.str ""),
                  changelog := pyGet kvs "changelog" (.str "") }
      else .error .valueError
  | _ => .error .attributeError

/-- The key/value list built by `AppEntry.to_dict`, in source order: the four
identity fields always, every other field only when non-empty / non-zero /
non-`None`, `update_strategy` always. -/
def to_dict_pairs (e : PyEntry) : List (String × JVal) :=
  [("id", e.id), ("name", e.name), ("version", e.version), ("category", e.category)]
  ++ optEntry (pyTruthy e.summary) "summary" e.summary
  ++ optEntry (pyTruthy e.description) "description" e.description
  ++ optEntry (!e.tags.isEmpty) "tags" (.arr e.tags)
  ++ optEntry (pyTruthy e.developer) "developer" e.developer
  ++ optEntry (pyTruthy e.publisher) "publisher" e.publisher
  ++ optEntry (!e.release_year.isNull) "release_year" e.release_year
  ++ optEntry (pyTruthy e.content_rating) "content_rating" e.content_rating
  ++ optEntry (!e.languages.isEmpty) "languages" (.arr e.languages)
  ++ optEntry (pyTruthy e.website) "website" e.website
  ++ optEntry (!e.store_links.isEmpty) "store_links" (.obj e.store_links)
  ++ optEntry (pyTruthy e.icon) "icon" e.icon
  ++ optEntry (pyTruthy e.cover) "cover" e.cover
  ++ optEntry (pyTruthy e.hero) "hero" e.hero
  ++ optEntry (!e.screenshots.isEmpty) "screenshots" (.arr e.screenshots)
  ++ optEntry (pyTruthy e.archive) "archive" e.archive
  ++ optEntry (e.archive_size != 0) "archive_size" (.num e.archive_size)
  ++ optEntry (pyTruthy e.archive_sha256) "archive_sha256" e.archive_sha256
  ++ optEntry (e.install_size_estimate != 0) "install_size_estimate"
      (.num e.install_size_estimate)
  ++ (match e.built_with with
      | some bw => [("built_with", builtWith_to_dict bw)]
      | none => [])
  ++ [("update_strategy", e.update_strategy)]
  ++ optEntry (pyTruthy e.entry_point) "entry_point" e.entry_point
  ++ optEntry (pyTruthy e.compatibility_notes) "compatibility_notes" e.compatibility_notes
  ++ optEntry (pyTruthy e.changelog) "changelog" e.changelog

/-- `AppEntry.to_dict`. -/
def to_dict (e : PyEntry) : JVal := .obj (to_dict_pairs e)

/-! ### Catalogue fetching (`Repo.fetch_catalogue`) -/

/-- How a `fetch_catalogue` call can fail: the explicit `RepoError` for an
unexpected top-level type, or an exception that escapes the per-record
`except (KeyError, TypeError, ValueError)` handler. -/
inductive FetchErr where
  | repoError (msg : String)
  | uncaught (exc : PyExc)
deriving DecidableEq

/-- Is this exception class caught by the handler in `fetch_catalogue`? -/
def caughtByFetch : PyExc → Bool
  | .keyError => true
  | .typeError => true
  | .valueError => true
  | .attributeError => false

/-- The `for item in items` loop of `fetch_catalogue`: well-formed records
are collected, records failing with a caught exception are logged and
skipped, any other exception propagates and aborts the whole call. -/
def fetchLoop : List JVal → List PyEntry → Except FetchErr (List PyEntry)
  | [], acc => .ok acc
  | item :: rest, acc =>
      match from_dict item with
      | .ok e => fetchLoop rest (acc ++ [e])
      | .error exc =>
          if caughtByFetch exc then fetchLoop rest acc else .error (.uncaught exc)

/-- `Repo.fetch_catalogue` on an already-parsed catalogue document: a bare
list is used as is; a dict contributes `raw.get("apps", [])` (iterating a
non-list `apps` value either raises `TypeError` or yields string records
that then fail, per `pyIter`); any other top level raises `RepoError`. -/
def fetch_catalogue (doc : JVal) : Except FetchErr (List PyEntry) :=
  match doc with
  | .arr items => fetchLoop items []
  | .obj kvs =>
      match pyIter (pyGet kvs "apps" (.arr [])) with
      | .ok items => fetchLoop items []
      | .error exc => .error (.uncaught exc)
  | _ => .error (.repoError "catalogue.json has an unexpected top-level type")

/-! ### Well-typedness of an entry (the dataclass annotations) -/

/-- Is this value a JSON/Python string? -/
def isStr : JVal → Bool
  | .str _ => true
  | _ => false

/-- Pairwise-distinct keys (a Python dict cannot hold duplicates). -/
def keysNodup : List (String × JVal) → Bool
  | [] => true
  | kv :: rest => rest.all (fun kv2 => kv2.1 != kv.1) && keysNodup rest

/-- Does an optional `BuiltWith` respect the `BuiltWith` annotations
(`runner`, `dxvk`, `vkd3d : str`)? -/
def wellTypedBW : Option PyBuiltWith → Bool
  | none => true
  | some bw => isStr bw.runner && isStr bw.dxvk && isStr bw.vkd3d

/-- `release_year : int | None`. -/
def isOptYear : JVal → Bool
  | .null => true
  | .num _ => true
  | _ => false

/-- Does the entry respect the `AppEntry` dataclass annotations?  (These are
exactly the values `AppEntry(...)` holds in a type-checked program: string
fields are strings, the tuples hold strings, `store_links` is a `dict`,
`update_strategy` is the literal `"safe"` or `"full"`.) -/
def wellTyped (e : PyEntry) : Bool :=
  isStr e.id && isStr e.name && isStr e.version && isStr e.category
    && isStr e.summary && isStr e.description && e.tags.all isStr
    && isStr e.developer && isStr e.publisher && isOptYear e.release_year
    && isStr e.content_rating && e.languages.all isStr && isStr e.website
    && keysNodup e.store_links && e.store_links.all (fun kv => isStr kv.2)
    && isStr e.icon && isStr e.cover && isStr e.hero && e.screenshots.all isStr
    && isStr e.archive && isStr e.archive_sha256 && wellTypedBW e.built_with
    && isSafeOrFull e.update_strategy && isStr e.entry_point
    && isStr e.compatibility_notes && isStr e.changelog

/-! ### Lookup lemmas for the emitted record -/

theorem lookup_nil (k : String) : List.lookup k ([] : List (String × JVal)) = none := rfl

theorem lookup_cons_hit (key : String) (v : JVal) (rest : List (String × JVal)) :
    List.lookup key ((key, v) :: rest) = some v := by
  simp [List.lookup]

theorem lookup_cons_skip (k key : String) (v : JVal) (rest : List (String × JVal))
    (h : (k == key) = false) :
    List.lookup k ((key, v) :: rest) = List.lookup k rest := by
  simp [List.lookup, h]

theorem lookup_optEntry_hit (key : String) (c : Bool) (v : JVal)
    (rest : List (String × JVal)) :
    List.lookup key (optEntry c key v ++ rest)
      = if c then some v else List.lookup key rest := by
  unfold optEntry
  split
  · simp [List.lookup]
  · simp

theorem lookup_optEntry_skip (k key : String) (c : Bool) (v : JVal)
    (rest : List (String × JVal)) (h : (k == key) = false) :
    List.lookup k (optEntry c key v ++ rest) = List.lookup k rest := by
  unfold optEntry
  split
  · simp [List.lookup, h]
  · simp

theorem lookup_optEntry_last_hit (key : String) (c : Bool) (v : JVal) :
    List.lookup key (optEntry c key v) = if c then some v else none := by
  unfold optEntry
  split
  · simp [List.lookup]
  · simp

theorem lookup_optEntry_last_skip (k key : String) (c : Bool) (v : JVal)
    (h : (k == key) = false) :
    List.lookup k (optEntry c key v) = none := by
  unfold optEntry
  split
  · simp [List.lookup, h]
  · simp

theorem getD_ite (c : Bool) (v : JVal) (o : Option JVal) (d : JVal) :
    (if c then some v else o).getD d = if c then v else o.getD d := by
  cases c <;> rfl

/-! ### Collapse lemmas: reading back an optionally-emitted field -/

theorem str_truthy_collapse (s : String) :
    (if pyTruthy (JVal.str s) then JVal.str s else JVal.str "") = JVal.str s := by
  by_cases h : s = ""
  · subst h; rfl
  · simp [pyTruthy, h]

theorem arr_collapse (l : List JVal) :
    (if !l.isEmpty then JVal.arr l else JVal.arr []) = JVal.arr l := by
  cases l <;> rfl

theorem obj_collapse (l : List (String × JVal)) :
    (if !l.isEmpty then JVal.obj l else JVal.obj []) = JVal.obj l := by
  cases l <;> rfl

theorem num_collapse (n : Int) :
    (if n != 0 then JVal.num n else JVal.num 0) = JVal.num n := by
  by_cases h : n = 0
  · subst h; rfl
  · simp [h]

theorem getD_num_collapse (n : Int) :
    ((if n = 0 then none else some (JVal.num n)).getD (JVal.num 0)) = JVal.num n := by
  by_cases h : n = 0
  · subst h; rfl
  · simp [h]

theorem year_collapse (v : JVal) :
    (if !v.isNull then v else JVal.null) = v := by
  cases v <;> rfl

theorem getD_year_collapse (v : JVal) :
    (if v.isNull = false then some v else none).getD JVal.null = v := by
  cases v <;> rfl

theorem isStr_exists {v : JVal} (h : isStr v = true) : ∃ s, v = .str s := by
  cases v <;> simp [isStr] at h ⊢

theorem pyTruthy_null : pyTruthy .null = false := rfl

theorem pyTruthy_obj_cons (kv : String × JVal) (l : List (String × JVal)) :
    pyTruthy (.obj (kv :: l)) = true := rfl

/-- C10: serialisation round-trips — for every `AppEntry` value respecting
the dataclass annotations, `AppEntry.from_dict(e.to_dict()) == e`, although
`to_dict` omits empty strings, empty collections, zero sizes and `None`
fields. -/
theorem from_to_dict_roundtrip (e : PyEntry) (h : wellTyped e = true) :
    from_dict (to_dict e) = .ok e := by
  obtain ⟨idv, namev, versionv, categoryv, summaryv, descriptionv, tagsv, developerv,
    publisherv, release_yearv, content_ratingv, languagesv, websitev, store_linksv,
    iconv, coverv, herov, screenshotsv, archivev, archive_sizev, archive_sha256v,
    install_sizev, built_withv, update_strategyv, entry_pointv, compatibility_notesv,
    changelogv⟩ := e
  simp only [wellTyped, Bool.and_eq_true] at h
  obtain ⟨h, hchangelog⟩ := h
  obtain ⟨h, hcompat⟩ := h
  obtain ⟨h, hentry⟩ := h
  obtain ⟨h, hstrat⟩ := h
  obtain ⟨h, hbw⟩ := h
  obtain ⟨h, hsha⟩ := h
  obtain ⟨h, harchive⟩ := h
  obtain ⟨h, hshots⟩ := h
  obtain ⟨h, hhero⟩ := h
  obtain ⟨h, hcover⟩ := h
  obtain ⟨h, hicon⟩ := h
  obtain ⟨h, hslinks2⟩ := h
  obtain ⟨h, hnodup⟩ := h
  obtain ⟨h, hwebsite⟩ := h
  obtain ⟨h, hlang⟩ := h
  obtain ⟨h, hrating⟩ := h
  obtain ⟨h, hyear⟩ := h
  obtain ⟨h, hpublisher⟩ := h
  obtain ⟨h, hdeveloper⟩ := h
  obtain ⟨h, htags⟩ := h
  obtain ⟨h, hdescription⟩ := h
  obtain ⟨h, hsummary⟩ := h
  obtain ⟨h, hcategory⟩ := h
  obtain ⟨h, hversion⟩ := h
  obtain ⟨hid, hname⟩ := h
  obtain ⟨s1, rfl⟩ := isStr_exists hsummary
  obtain ⟨s2, rfl⟩ := isStr_exists hdescription
  obtain ⟨s3, rfl⟩ := isStr_exists hdeveloper
  obtain ⟨s4, rfl⟩ := isStr_exists hpublisher
  obtain ⟨s5, rfl⟩ := isStr_exists hrating
  obtain ⟨s6, rfl⟩ := isStr_exists hwebsite
  obtain ⟨s7, rfl⟩ := isStr_exists hicon
  obtain ⟨s8, rfl⟩ := isStr_exists hcover
  obtain ⟨s9, rfl⟩ := isStr_exists hhero
  obtain ⟨s10, rfl⟩ := isStr_exists harchive
  obtain ⟨s11, rfl⟩ := isStr_exists hsha
  obtain ⟨s12, rfl⟩ := isStr_exists hentry
  obtain ⟨s13, rfl⟩ := isStr_exists hcompat
  obtain ⟨s14, rfl⟩ := isStr_exists hchangelog
  cases built_withv with
  | none =>
      simp [to_dict, from_dict, to_dict_pairs, pyGet, pyIndex, pyIter, pyDict, pyInt,
        List.cons_append, List.nil_append, List.append_assoc,
        lookup_cons_hit, lookup_cons_skip, lookup_optEntry_hit, lookup_optEntry_skip,
        lookup_nil, lookup_optEntry_last_hit, lookup_optEntry_last_skip, getD_ite, getD_num_collapse, getD_year_collapse, str_truthy_collapse, arr_collapse, obj_collapse,
        num_collapse, year_collapse, pyTruthy_null, pyTruthy_obj_cons, hstrat,
        Except.map]
  | some bw =>
      obtain ⟨rv, dv, kv⟩ := bw
      simp only [wellTypedBW, Bool.and_eq_true] at hbw
      obtain ⟨⟨hr, hd⟩, hk⟩ := hbw
      obtain ⟨t1, rfl⟩ := isStr_exists hd
      obtain ⟨t2, rfl⟩ := isStr_exists hk
      simp [to_dict, from_dict, to_dict_pairs, pyGet, pyIndex, pyIter, pyDict, pyInt,
        builtWith_to_dict, builtWith_from_dict,
        List.cons_append, List.nil_append, List.append_assoc,
        lookup_cons_hit, lookup_cons_skip, lookup_optEntry_hit, lookup_optEntry_skip,
        lookup_nil, lookup_optEntry_last_hit, lookup_optEntry_last_skip, getD_ite, getD_num_collapse, getD_year_collapse, str_truthy_collapse, arr_collapse, obj_collapse,
        num_collapse, year_collapse, pyTruthy_null, pyTruthy_obj_cons, hstrat,
        Except.map]



/-- A concrete annotation-respecting entry used as the round-trip witness. -/
def sampleEntry : PyEntry :=
  { id := .str "app", name := .str "App", version := .str "1", category := .str "Games",
    summary := .str "", description := .str "d", tags := [.str "t"],
    developer := .str "", publisher := .str "p", release_year := .num 2001,
    content_rating := .str "", languages := [], website := .str "",
    store_links := [("steam", .str "u")], icon := .str "i", cover := .str "",
    hero := .str "", screenshots := [], archive := .str "a.tar.gz",
    archive_size := 7, archive_sha256 := .str "", install_size_estimate := 0,
    built_with := some ⟨.str "r", .str "", .str "v"⟩, update_strategy := .str "safe",
    entry_point := .str "", compatibility_notes := .str "", changelog := .str "" }

theorem from_to_dict_roundtrip_witness :
    wellTyped sampleEntry = true ∧ from_dict (to_dict sampleEntry) = .ok sampleEntry :=
  ⟨by decide, from_to_dict_roundtrip sampleEntry (by decide)⟩

theorem pyIndex_error {kvs : List (String × JVal)} {k : String} {e : PyExc}
    (h : pyIndex kvs k = .error e) : caughtByFetch e = true := by
  unfold pyIndex at h
  split at h
  · simp at h
  · injection h with h1; subst h1; rfl

theorem pyIter_error {v : JVal} {e : PyExc} (h : pyIter v = .error e) :
    caughtByFetch e = true := by
  cases v <;> simp [pyIter] at h <;> simp [← h, caughtByFetch]

theorem pyDict_error {v : JVal} {e : PyExc} (h : pyDict v = .error e) :
    caughtByFetch e = true := by
  unfold pyDict at h
  split at h
  all_goals first
    | (cases h; rfl)
    | cases h

theorem pyInt_error {v : JVal} {e : PyExc} (h : pyInt v = .error e) :
    caughtByFetch e = true := by
  unfold pyInt at h
  split at h
  all_goals try split at h
  all_goals first
    | (cases h; rfl)
    | cases h

/-- Records safe against the uncaught-exception paths: JSON objects whose
`built_with` value, when true-like, is itself an object. -/
def recordOk : JVal → Bool
  | .obj kvs =>
      (match pyGet kvs "built_with" .null with
       | .obj _ => true
       | v => !pyTruthy v)
  | _ => false

theorem builtWith_branch_error {kvs : List (String × JVal)} {e : PyExc}
    (hok : recordOk (.obj kvs) = true)
    (h : (if pyTruthy (pyGet kvs "built_with" .null)
        then (builtWith_from_dict (pyGet kvs "built_with" .null)).map some
        else .ok none) = Except.error e) : caughtByFetch e = true := by
  simp only [recordOk] at hok
  cases hraw : pyGet kvs "built_with" .null with
  | obj bkvs =>
      rw [hraw] at h
      simp only [builtWith_from_dict, Except.map] at h
      split at h <;> simp at h
  | null =>
      rw [hraw] at h
      simp [pyTruthy] at h
  | bool b =>
      rw [hraw] at hok h
      cases b
      · simp [pyTruthy] at h
      · simp [pyTruthy] at hok
  | num n =>
      rw [hraw] at hok h
      by_cases hn : n = 0
      · subst hn; simp [pyTruthy] at h
      · simp [pyTruthy, hn] at hok
  | str s =>
      rw [hraw] at hok h
      by_cases hs : s = ""
      · subst hs; simp [pyTruthy] at h
      · simp [pyTruthy, hs] at hok
  | arr xs =>
      rw [hraw] at hok h
      cases xs
      · simp [pyTruthy] at h
      · simp [pyTruthy] at hok

theorem from_dict_err_caught (item : JVal) (hok : recordOk item = true) (exc : PyExc)
    (h : from_dict item = .error exc) : caughtByFetch exc = true := by
  cases item with
  | obj kvs =>
      simp only [from_dict] at h
      split at h
      case isTrue =>
        split at h
        case h_1 => injection h with h1; subst h1; exact pyIndex_error (by assumption)
        case h_2 =>
        split at h
        case h_1 => injection h with h1; subst h1; exact pyIndex_error (by assumption)
        case h_2 =>
        split at h
        case h_1 => injection h with h1; subst h1; exact pyIndex_error (by assumption)
        case h_2 =>
        split at h
        case h_1 => injection h with h1; subst h1; exact pyIndex_error (by assumption)
        case h_2 =>
        split at h
        case h_1 => injection h with h1; subst h1; exact pyIter_error (by assumption)
        case h_2 =>
        split at h
        case h_1 => injection h with h1; subst h1; exact pyIter_error (by assumption)
        case h_2 =>
        split at h
        case h_1 => injection h with h1; subst h1; exact pyDict_error (by assumption)
        case h_2 =>
        split at h
        case h_1 => injection h with h1; subst h1; exact pyIter_error (by assumption)
        case h_2 =>
        split at h
        case h_1 => injection h with h1; subst h1; exact pyInt_error (by assumption)
        case h_2 =>
        split at h
        case h_1 => injection h with h1; subst h1; exact pyInt_error (by assumption)
        case h_2 =>
        split at h
        case h_1 => injection h with h1; subst h1; exact builtWith_branch_error hok (by assumption)
        case h_2 => simp at h
      case isFalse => injection h with h1; subst h1; rfl
  | null => simp [recordOk] at hok
  | bool b => simp [recordOk] at hok
  | num n => simp [recordOk] at hok
  | str s => simp [recordOk] at hok
  | arr xs => simp [recordOk] at hok


theorem fetchLoop_ok : ∀ (items : List JVal) (acc : List PyEntry),
    (∀ item ∈ items, ∀ exc, from_dict item = .error exc → caughtByFetch exc = true) →
    fetchLoop items acc
      = .ok (acc ++ items.filterMap fun item => (from_dict item).toOption) := by
  intro items
  induction items with
  | nil => intro acc _; simp [fetchLoop]
  | cons item rest ih =>
      intro acc h
      have hrest : ∀ it ∈ rest, ∀ exc, from_dict it = .error exc → caughtByFetch exc = true :=
        fun it hm => h it (List.mem_cons_of_mem _ hm)
      cases hfd : from_dict item with
      | ok e =>
          rw [show fetchLoop (item :: rest) acc = fetchLoop rest (acc ++ [e]) from by
            rw [fetchLoop, hfd]]
          rw [ih (acc ++ [e]) hrest]
          simp [List.filterMap_cons, hfd, Except.toOption]
      | error exc =>
          have hc := h item (List.mem_cons_self item rest) exc hfd
          rw [show fetchLoop (item :: rest) acc = fetchLoop rest acc from by
            rw [fetchLoop, hfd]; simp [hc]]
          rw [ih acc hrest]
          simp [List.filterMap_cons, hfd, Except.toOption]

/-- Amended C5: a record that is a JSON object whose `built_with` value is
absent, false-like or an object is deserialized independently — if malformed
it is skipped (its exception class is caught), and all well-formed records
are returned; this holds for a bare list and for a wrapped object with an
`apps` list.  (Other records abort the whole fetch, see the counterexample.) -/
theorem fetch_catalogue_amended (items : List JVal) (kvs : List (String × JVal))
    (h : ∀ item ∈ items, recordOk item = true) :
    fetch_catalogue (.arr items)
      = .ok (items.filterMap fun item => (from_dict item).toOption)
    ∧ (List.lookup "apps" kvs = some (.arr items) →
        fetch_catalogue (.obj kvs)
          = .ok (items.filterMap fun item => (from_dict item).toOption)) := by
  have hcaught : ∀ item ∈ items, ∀ exc, from_dict item = .error exc →
      caughtByFetch exc = true :=
    fun item hm exc he => from_dict_err_caught item (h item hm) exc he
  constructor
  · simpa using fetchLoop_ok items [] hcaught
  · intro happs
    simp only [fetch_catalogue, pyGet, happs, Option.getD_some, pyIter]
    simpa using fetchLoop_ok items [] hcaught

/-- Counterexample to C5 as stated: a malformed record that is not a JSON
object (here the string `"x"`) raises `AttributeError` at the first `.get`,
which the `except (KeyError, TypeError, ValueError)` handler does not catch,
so the whole catalogue fetch fails instead of skipping the record. -/
theorem fetch_catalogue_counterexample :
    fetch_catalogue (.arr [.str "x", .obj [("id", .str "a"), ("name", .str "n"),
        ("version", .str "1"), ("category", .str "c")]])
      = .error (.uncaught .attributeError) := rfl

/-- Witness for the amended C5: one record missing a required key is skipped
with its `KeyError` caught, the well-formed record is returned, for both
catalogue document shapes. -/
theorem fetch_catalogue_amended_witness :
    fetch_catalogue (.arr [.obj [("id", .str "a")], .obj [("id", .str "a"),
        ("name", .str "n"), ("version", .str "1"), ("category", .str "c")]])
      = .ok ([.obj [("id", .str "a")], .obj [("id", .str "a"), ("name", .str "n"),
          ("version", .str "1"), ("category", .str "c")]].filterMap
            fun item => (from_dict item).toOption)
    ∧ fetch_catalogue (.obj [("apps", .arr [.obj [("id", .str "a")],
        .obj [("id", .str "a"), ("name", .str "n"), ("version", .str "1"),
          ("category", .str "c")]])])
      = .ok ([.obj [("id", .str "a")], .obj [("id", .str "a"), ("name", .str "n"),
          ("version", .str "1"), ("category", .str "c")]].filterMap
            fun item => (from_dict item).toOption) :=
  ⟨(fetch_catalogue_amended
      [.obj [("id", .str "a")], .obj [("id", .str "a"), ("name", .str "n"),
        ("version", .str "1"), ("category", .str "c")]]
      [("apps", .arr [.obj [("id", .str "a")], .obj [("id", .str "a"),
        ("name", .str "n"), ("version", .str "1"), ("category", .str "c")]])]
      (by decide)).1,
   (fetch_catalogue_amended
      [.obj [("id", .str "a")], .obj [("id", .str "a"), ("name", .str "n"),
        ("version", .str "1"), ("category", .str "c")]]
      [("apps", .arr [.obj [("id", .str "a")], .obj [("id", .str "a"),
        ("name", .str "n"), ("version", .str "1"), ("category", .str "c")]])]
      (by decide)).2 rfl⟩


end Cellar
